import Mathlib

/-!
Shallow embedding of the multi-backend wallet engine of SpaceUY/wallet-poc.

External library primitives (ethers keccak256 digest cores, EIP-55 checksum
encoding, ECDSA address recovery, RLP serialization) and external collaborators
(chain RPC provider, the native secure-element module) are modelled as explicit
function parameters / environment fields: the repository code receives their
results and branches on them, and every definition below transcribes exactly
that branching structure from the TypeScript source.  JavaScript exceptions are
modelled with Except, JS null/undefined with Option, and JS BigInt with Int.
-/

namespace WalletPoc

/-- Decidable equality for Except results, for concrete evaluation. -/
instance {e a : Type} [DecidableEq e] [DecidableEq a] : DecidableEq (Except e a) :=
  fun x y =>
    match x, y with
    | .ok u, .ok v =>
      if h : u = v then isTrue (by rw [h]) else isFalse (fun hh => by cases hh; exact h rfl)
    | .error u, .error v =>
      if h : u = v then isTrue (by rw [h]) else isFalse (fun hh => by cases hh; exact h rfl)
    | .ok _, .error _ => isFalse (fun hh => by cases hh)
    | .error _, .ok _ => isFalse (fun hh => by cases hh)

/-! ### String helpers (JS primitives used by the source) -/

/-- ASCII lower-casing of one character, as JS toLowerCase acts on the
hex / address strings compared by the source. -/
def lowerChar (c : Char) : Char :=
  if 'A' ≤ c ∧ c ≤ 'Z' then Char.ofNat (c.toNat + 32) else c

/-- JS String.prototype.toLowerCase on the ASCII strings used by the source. -/
def lowerStr (s : String) : String :=
  String.mk (s.toList.map lowerChar)

/-- Hexadecimal digit test. -/
def isHexDigit (c : Char) : Bool :=
  ('0' ≤ c ∧ c ≤ '9') ∨ ('a' ≤ c ∧ c ≤ 'f') ∨ ('A' ≤ c ∧ c ≤ 'F')

/-- A well-formed hex body: even length, hex digits only (what
ethers accepts after the 0x tag in a BytesLike string). -/
def hexBodyOk (s : String) : Bool :=
  s.toList.length % 2 == 0 && s.toList.all isHexDigit

/-- JS String.prototype.startsWith, over the character list (kernel-reducible). -/
def strStartsWith (s p : String) : Bool :=
  p.toList.isPrefixOf s.toList

/-- JS String.prototype.slice(n) for nonnegative n. -/
def strDrop (s : String) (n : Nat) : String :=
  String.mk (s.toList.drop n)

/-- WalletService.ts:207-208 — prepend 0x unless already present. -/
def with0x (s : String) : String :=
  if strStartsWith s "0x" then s else "0x" ++ s

/-- JS String.prototype.includes: needle occurs contiguously in haystack. -/
def containsSeq (needle : List Char) : List Char → Bool
  | [] => needle.isEmpty
  | c :: rest => needle.isPrefixOf (c :: rest) || containsSeq needle rest

/-- WalletService.ts:308 — error.message.includes('nonce'). -/
def includesNonce (msg : String) : Bool :=
  containsSeq "nonce".toList msg.toList

/-- JS String.prototype.slice with a negative index: the last n characters
(the whole string when shorter).  Used as hash.slice(-40). -/
def sliceFromEnd (n : Nat) (s : String) : String :=
  String.mk (s.toList.drop (s.toList.length - n))

/-! ### ethers.js primitives, parameterized by the digest core

ethers.keccak256 accepts a 0x-tagged even-length hex string of ANY byte
length and throws on anything else; the 256-bit digest core itself is the
parameter k (hex body in, 64-hex-char digest body out). -/

/-- ethers.keccak256 on a hex string: validates the 0x tag and hex body,
then applies the digest core. -/
def keccakHex (k : String → String) (input : String) : Except String String :=
  if strStartsWith input "0x" && hexBodyOk (strDrop input 2) then
    .ok ("0x" ++ k (strDrop input 2))
  else
    .error "invalid BytesLike value"

/-! ### ethers.parseEther (= parseUnits with 18 decimals)

Transcribed from ethers v6 FixedNumber.fromString: the value must match
the shape (-?)(digits).?(digits) with at least one digit; decimals beyond
the 18th must all be zero; the result must fit a signed 512-bit width. -/

/-- Digits of a decimal string to a natural number. -/
def digitsToNat (l : List Char) : Nat :=
  l.foldl (fun a c => a * 10 + (c.toNat - 48)) 0

/-- The regex match of FixedNumber.fromString: sign, whole digits,
fractional digits; none when the string is not of that shape or holds
no digit at all. -/
def parseDecimalString (s : String) : Option (Bool × List Char × List Char) :=
  let cs := s.toList
  let p : Bool × List Char := match cs with
    | '-' :: r => (true, r)
    | r => (false, r)
  let whole := p.2.takeWhile Char.isDigit
  let rest := p.2.dropWhile Char.isDigit
  match rest with
  | [] => if whole = [] then none else some (p.1, whole, [])
  | '.' :: frac =>
      if frac.all Char.isDigit && !(whole = [] && frac = []) then
        some (p.1, whole, frac)
      else none
  | _ => none

/-- ethers.parseEther: decimal string to wei (Int), or the thrown
ethers error message. -/
def parseEther (s : String) : Except String Int :=
  match parseDecimalString s with
  | none => .error "invalid FixedNumber string value"
  | some (neg, whole, frac) =>
    if (frac.drop 18).all (fun c => c = '0') then
      let frac18 := (frac.take 18) ++ List.replicate (18 - frac.length) '0'
      let mag : Nat := digitsToNat whole * 10 ^ 18 + digitsToNat frac18
      let v : Int := if neg then -(mag : Int) else (mag : Int)
      if v < -(2 ^ 511 : Int) ∨ (2 ^ 511 : Int) - 1 < v then
        .error "overflow"
      else
        .ok v
    else .error "too many decimals"

/-! ### Address Codec — WalletService.deriveAddressFromPublicKey
(WalletService.ts:821-832; identical code at secureStorage.ts:138-149 and
part_003:1080-1085).  ga is ethers.getAddress, the EIP-55 checksum encoder
(total on the 0x-hex strings produced here). -/

/-- WalletService.ts:823 — strip the uncompressed-point marker when present. -/
def stripUncompressedMarker (publicKey : String) : String :=
  if strStartsWith publicKey "04" then strDrop publicKey 2 else publicKey

/-- WalletService.deriveAddressFromPublicKey: strip the 04 marker, keccak
the remaining hex, keep the low 20 bytes, checksum-encode.  Errors exactly
when ethers.keccak256 rejects the hex body; NO key-length validation. -/
def deriveAddressFromPublicKey (k ga : String → String) (publicKey : String) :
    Except String String :=
  let keyWithoutPrefix := stripUncompressedMarker publicKey
  match keccakHex k ("0x" ++ keyWithoutPrefix) with
  | .error e => .error e
  | .ok hash =>
    let address := "0x" ++ sliceFromEnd 40 hash
    .ok (ga address)

/-! ### Errors of the engine, following the taxonomy of the spec -/

inductive TxError where
  | invalidInput (msg : String)
  | parseError (msg : String)
  | noHardwareWallet
  | signerFailure (msg : String)
  | signatureVerificationFailed
  | addressMismatch
  | broadcastRejected (msg : String)
  | hybridFailed
deriving DecidableEq, Repr

/-! ### Transaction-parameter validation
(WalletService.ts:802-819; identical at part_003:1064-1078) -/

/-- WalletService.validateTransactionParameters.  isAddr is
ethers.isAddress.  The max amount is computed, as in the source, by
parsing the string 1000 with parseEther. -/
def validateTransactionParameters (isAddr : String → Bool) («to» amount : String) :
    Except TxError Unit :=
  if «to» == "" || !(isAddr «to») then
    .error (.invalidInput "Invalid recipient address")
  else
    match parseEther amount with
    | .error m => .error (.parseError m)
    | .ok amountWei =>
      if amountWei ≤ 0 then
        .error (.invalidInput "Amount must be greater than 0")
      else
        match parseEther "1000" with
        | .error m => .error (.parseError m)
        | .ok maxAmount =>
          if amountWei > maxAmount then
            .error (.invalidInput "Amount exceeds maximum allowed (1000 ETH)")
          else
            .ok ()

/-! ### Data model of the hybrid hardware signing path
(WalletService.sendTransactionWithHybridApproach, WalletService.ts:132-355;
the same structure at HardwareWalletService, part_003:896-1062) -/

/-- The result of SecureWallet.checkForExistingWallet. -/
structure StoredWallet where
  publicKey : String
deriving DecidableEq, Repr

/-- SecureWallet.signTransactionHash result: r, s, v plus the raw public
key of the key actually used inside the secure element. -/
structure HardwareSignature where
  r : String
  s : String
  v : Nat
  publicKey : String
deriving DecidableEq, Repr

/-- The signature attached to the reconstructed transaction
(validSignature in the source). -/
structure Sig where
  r : String
  s : String
  v : Nat
deriving DecidableEq, Repr

/-- The unsigned legacy transaction record built at WalletService.ts:170-179. -/
structure UnsignedTx where
  «to» : String
  value : Int
  nonce : Nat
  gasLimit : Int
  gasPrice : Int
  data : String
  chainId : Nat
  txType : Nat
deriving DecidableEq, Repr

/-- The environment of one call of sendTransactionWithHybridApproach: the
results of the external collaborators it consults, in the source's order.
Provider reads (fee data, gas estimate, nonce, chain id) are the values the
RPC returned; broadcast is indexed by call order (the network is stateful);
the serialization / recovery functions are the ethers primitives. -/
structure HybridEnv where
  isAddr : String → Bool
  k : String → String
  ga : String → String
  checkForExistingWallet : Except String (Option StoredWallet)
  signHash : String → Except String HardwareSignature
  gasPriceWei : Int
  estimatedGas : Int
  nonce1 : Nat
  nonce2 : Nat
  chainId : Nat
  unsignedSerialized : UnsignedTx → String
  serializedSigned : UnsignedTx → Sig → String
  txFrom : UnsignedTx → Sig → Option String
  recoverAddress : String → Sig → Except String String

/-- The response oracle of provider.broadcastTransaction, by call order. -/
def HybridEnv.broadcastAt (bc : Nat → String → Except String String)
    (idx : Nat) (raw : String) : Except String String :=
  bc idx raw

/-- WalletService.ts:226-246 — the recovery-id search: try v = 27 then
v = 28 against ethers.recoverAddress, skip a throwing candidate, accept
the first whose lower-cased recovered address equals the expected one. -/
def findRecoveryId (recover : Nat → Except String String) (expected : String) :
    Option (String × Nat) :=
  match recover 27 with
  | .ok a =>
    if lowerStr a == lowerStr expected then some (a, 27)
    else
      match recover 28 with
      | .ok b => if lowerStr b == lowerStr expected then some (b, 28) else none
      | .error _ => none
  | .error _ =>
    match recover 28 with
    | .ok b => if lowerStr b == lowerStr expected then some (b, 28) else none
    | .error _ => none

/-- WalletService.ts:212-262 — the try block around signature verification:
derive the expected address from the signer public key, search the recovery
id; any failure inside the block is caught and rethrown as the fatal
"Invalid signature from Secure Enclave" (SignatureVerificationFailed). -/
def reconcile (env : HybridEnv) (txHash : String) (signature : HardwareSignature)
    (vs : Sig) : Except TxError (String × String × Nat) :=
  match deriveAddressFromPublicKey env.k env.ga signature.publicKey with
  | .error _ => .error .signatureVerificationFailed
  | .ok signatureAddress =>
    match findRecoveryId
        (fun v => env.recoverAddress txHash { r := vs.r, s := vs.s, v := v })
        signatureAddress with
    | none => .error .signatureVerificationFailed
    | some (recovered, correctV) => .ok (signatureAddress, recovered, correctV)

/-- Everything the first signing attempt established, as needed by the
broadcast step and by the statements below. -/
structure SignedBundle where
  actualSigningAddress : String
  unsignedTx : UnsignedTx
  txHash : String
  hwSig : HardwareSignature
  signatureAddress : String
  recoveredAddress : String
  sig : Sig
  serializedTx : String
deriving DecidableEq, Repr

/-- WalletService.ts:132-297 — validation, probe of the actual signing key,
transaction building, hashing, hardware signing, recovery-id reconciliation,
reconstruction, and the final triple address check before broadcast. -/
def buildAndSign (env : HybridEnv) («to» amount : String) :
    Except TxError SignedBundle :=
  match validateTransactionParameters env.isAddr «to» amount with
  | .error e => .error e
  | .ok () =>
  match env.checkForExistingWallet with
  | .error m => .error (.signerFailure m)
  | .ok none => .error .noHardwareWallet
  | .ok (some _) =>
  match keccakHex env.k "0x1234567890abcdef" with
  | .error m => .error (.parseError m)
  | .ok dummyHash =>
  match env.signHash dummyHash with
  | .error m => .error (.signerFailure m)
  | .ok testSignature =>
  match deriveAddressFromPublicKey env.k env.ga testSignature.publicKey with
  | .error m => .error (.parseError m)
  | .ok actualSigningAddress =>
  match parseEther amount with
  | .error m => .error (.parseError m)
  | .ok value =>
  let unsignedTx : UnsignedTx :=
    { «to» := «to», value := value, nonce := env.nonce1,
      gasLimit := env.estimatedGas, gasPrice := env.gasPriceWei,
      data := "0x", chainId := env.chainId, txType := 0 }
  match keccakHex env.k (env.unsignedSerialized unsignedTx) with
  | .error m => .error (.parseError m)
  | .ok transactionHash =>
  match env.signHash transactionHash with
  | .error m => .error (.signerFailure m)
  | .ok signature =>
  let validSignature : Sig :=
    { r := with0x signature.r, s := with0x signature.s, v := signature.v }
  match reconcile env transactionHash signature validSignature with
  | .error e => .error e
  | .ok (signatureAddress, recoveredAddress, correctV) =>
  let finalSig : Sig := { validSignature with v := correctV }
  let serializedTx := env.serializedSigned unsignedTx finalSig
  let txFromAddr := env.txFrom unsignedTx finalSig
  if (match txFromAddr with
      | some a => lowerStr a == lowerStr signatureAddress
      | none => false)
      && (lowerStr recoveredAddress == lowerStr signatureAddress) then
    .ok { actualSigningAddress := actualSigningAddress,
          unsignedTx := unsignedTx, txHash := transactionHash,
          hwSig := signature, signatureAddress := signatureAddress,
          recoveredAddress := recoveredAddress, sig := finalSig,
          serializedTx := serializedTx }
  else
    .error .addressMismatch

/-- The transaction actually handed to broadcast, plus the response hash. -/
structure SentTx where
  tx : UnsignedTx
  hwSig : HardwareSignature
  sig : Sig
  raw : String
  response : String
  retried : Bool
deriving DecidableEq, Repr

/-- WalletService.ts:299-349 — broadcast with the single nonce-conflict
retry: on a broadcast error whose message includes nonce, fetch a fresh
nonce, rebuild and re-sign the transaction, and broadcast it once more
(note: WITHOUT repeating the recovery-id reconciliation or the address
check); any other broadcast error, and any retry failure, is terminal. -/
def hybridSendCore (env : HybridEnv) (bc : Nat → String → Except String String)
    («to» amount : String) : Except TxError SentTx :=
  match buildAndSign env «to» amount with
  | .error e => .error e
  | .ok b =>
    match HybridEnv.broadcastAt bc 0 b.serializedTx with
    | .ok h =>
      .ok { tx := b.unsignedTx, hwSig := b.hwSig, sig := b.sig,
            raw := b.serializedTx, response := h, retried := false }
    | .error msg =>
      if includesNonce msg then
        let retryTx : UnsignedTx := { b.unsignedTx with nonce := env.nonce2 }
        match keccakHex env.k (env.unsignedSerialized retryTx) with
        | .error m => .error (.parseError m)
        | .ok retryHash =>
        match env.signHash retryHash with
        | .error m => .error (.signerFailure m)
        | .ok retrySignature =>
        let retryValidSignature : Sig :=
          { r := with0x retrySignature.r, s := with0x retrySignature.s,
            v := retrySignature.v }
        let retryRaw := env.serializedSigned retryTx retryValidSignature
        match HybridEnv.broadcastAt bc 1 retryRaw with
        | .ok h =>
          .ok { tx := retryTx, hwSig := retrySignature,
                sig := retryValidSignature, raw := retryRaw, response := h,
                retried := true }
        | .error m => .error (.broadcastRejected m)
      else
        .error (.broadcastRejected msg)

/-- WalletService.ts:351-354 — the outer catch: every failure is rethrown
as the single opaque hybrid-approach error. -/
def sendTransactionWithHybridApproach (env : HybridEnv)
    (bc : Nat → String → Except String String) («to» amount : String) :
    Except TxError SentTx :=
  match hybridSendCore env bc «to» amount with
  | .ok r => .ok r
  | .error _ => .error .hybridFailed

/-! ### Wallet Selector — WalletOrchestrator.checkExistingWallet
(AppSecurityService.ts:438-472) -/

inductive WType where
  | hardware
  | software
  | external
deriving DecidableEq, Repr

/-- WalletOrchestrator.checkExistingWallet: probe hardware, then software,
then external; the first probe reporting a located wallet wins; any thrown
error is caught and null is returned.  Each argument is the outcome of the
corresponding backend getWallet / getConnectedWallet call (Except models a
throw, the inner Option a found / not-found result). -/
def checkExistingWalletOrchestrator
    (hw sw ext : Except String (Option String)) : Option (String × WType) :=
  match hw with
  | .error _ => none
  | .ok (some a) => some (a, .hardware)
  | .ok none =>
    match sw with
    | .error _ => none
    | .ok (some a) => some (a, .software)
    | .ok none =>
      match ext with
      | .error _ => none
      | .ok (some a) => some (a, .external)
      | .ok none => none

/-! ### Hardware backend locate — HardwareWalletService.getWallet /
getActualSigningAddress (part_003:797-845) -/

/-- The collaborators consulted by the hardware backend's locate path. -/
structure HWEnv where
  isAvailable : Bool
  hwWallet : Except String (Option StoredWallet)
  signHash : String → Except String HardwareSignature
  k : String → String
  ga : String → String

/-- part_003:827-845 — sign a throwaway dummy hash and derive the address
from the public key returned by that signature; every failure is caught
and null is returned. -/
def getActualSigningAddressHW (env : HWEnv) : Option String :=
  if env.isAvailable = false then none
  else
    match keccakHex env.k "0x1234567890abcdef" with
    | .error _ => none
    | .ok dummyHash =>
      match env.signHash dummyHash with
      | .error _ => none
      | .ok sig =>
        match deriveAddressFromPublicKey env.k env.ga sig.publicKey with
        | .error _ => none
        | .ok a => some a

/-- part_003:797-825 — HardwareWalletService.getWallet: availability check,
stored-key presence check, then the actual-signing-address probe; the
stored public key is never used as the reported address. -/
def getWalletHW (env : HWEnv) : Option String :=
  if env.isAvailable = false then none
  else
    match env.hwWallet with
    | .error _ => none
    | .ok none => none
    | .ok (some _) => getActualSigningAddressHW env

/-! ### WalletService.checkExistingWallet / getActualSigningAddress
(WalletService.ts:658-735) -/

/-- The collaborators consulted by WalletService's detection path. -/
structure CheckEnv where
  isSecure : Bool
  hwWallet : Except String (Option StoredWallet)
  signHash : String → Except String HardwareSignature
  k : String → String
  ga : String → String
  swWallet : Except String (Option String)

/-- WalletService.ts:658-704 — checkExistingWallet: when the device is
secure and a hardware wallet exists, the address DERIVED FROM THE STORED
PUBLIC KEY is returned (the source itself notes it might not be the actual
signing address); otherwise fall through to the software wallet; every
error of the software lookup is caught and null returned. -/
def checkExistingWalletWS (env : CheckEnv) : Option String :=
  let hwBranch : Option String :=
    if env.isSecure then
      match env.hwWallet with
      | .ok (some w) =>
        match deriveAddressFromPublicKey env.k env.ga w.publicKey with
        | .ok a => some a
        | .error _ => none
      | _ => none
    else none
  match hwBranch with
  | some a => some a
  | none =>
    match env.swWallet with
    | .ok (some a) => some a
    | _ => none

/-- WalletService.ts:710-735 — getActualSigningAddress: for a secure
device, probe with a throwaway signature; ON ANY FAILURE the catch block
FALLS BACK to checkExistingWallet, i.e. to the stored address. -/
def getActualSigningAddressWS (env : CheckEnv) : Option String :=
  if env.isSecure = false then checkExistingWalletWS env
  else
    match keccakHex env.k "0x1234567890abcdef" with
    | .error _ => checkExistingWalletWS env
    | .ok dummyHash =>
      match env.signHash dummyHash with
      | .error _ => checkExistingWalletWS env
      | .ok sig =>
        match deriveAddressFromPublicKey env.k env.ga sig.publicKey with
        | .error _ => checkExistingWalletWS env
        | .ok a => some a

/-! ### SecureStorage encryption layer
(secureStorage.ts:300-316).  JS strings are modelled as character lists;
the SHA-256 digest (whose hex output holds no colon) is the parameter. -/

/-- JS String.prototype.split on a single separator character: split on
every occurrence, keeping empty pieces. -/
def splitOnCh (c : Char) : List Char → List (List Char)
  | [] => [[]]
  | x :: xs =>
    match splitOnCh c xs with
    | [] => [[]]
    | h :: t => if x = c then [] :: h :: t else (x :: h) :: t

/-- The salt string prepended before hashing (secureStorage.ts:305). -/
def saltChars : List Char := "app-specific-salt".toList

/-- secureStorage.encryptData: digest(salt + data) + colon + data — a
key-less reversible encoding. -/
def encryptData (digest : List Char → List Char) (data : List Char) :
    List Char :=
  digest (saltChars ++ data) ++ (':' :: data)

/-- secureStorage.decryptData: split on colon and take the second piece
(JS destructuring drops the first); none models undefined. -/
def decryptData (encrypted : List Char) : Option (List Char) :=
  (splitOnCh ':' encrypted)[1]?

/-! ### The nonce-fetch-then-broadcast window, interleaved
(WalletService.ts:164 getTransactionCount, then :302
broadcastTransaction).  Two concurrent sends for the same address are two
instances of that read-then-act sequence over the shared pending-nonce
state of the chain; the source takes no lock between the two steps. -/

/-- The chain's pending transaction count for the one address. -/
structure ChainState where
  pending : Nat
deriving DecidableEq, Repr

/-- Where one send stands: before the nonce fetch, after it (holding the
observed nonce through signing), or finished (accepted iff the observed
nonce was still current at broadcast time). -/
inductive SendPhase where
  | ready
  | signing (observed : Nat)
  | done (observed : Nat) (accepted : Bool)
deriving DecidableEq, Repr

/-- One atomic step of a send: the nonce fetch, then the broadcast; a
broadcast with a stale nonce is rejected as a nonce conflict. -/
def stepSend (c : ChainState) : SendPhase → ChainState × SendPhase
  | .ready => (c, .signing c.pending)
  | .signing n =>
    if n = c.pending then (⟨c.pending + 1⟩, .done n true)
    else (c, .done n false)
  | .done n a => (c, .done n a)

/-- Two sends for the same address over the shared chain state. -/
structure ConcState where
  chain : ChainState
  p1 : SendPhase
  p2 : SendPhase
deriving DecidableEq, Repr

/-- Scheduler: step the first send (true) or the second (false). -/
def schedStep (s : ConcState) (which : Bool) : ConcState :=
  if which then
    let r := stepSend s.chain s.p1
    { chain := r.1, p1 := r.2, p2 := s.p2 }
  else
    let r := stepSend s.chain s.p2
    { chain := r.1, p1 := s.p1, p2 := r.2 }

/-- Run a schedule. -/
def runSched (s : ConcState) : List Bool → ConcState
  | [] => s
  | b :: rest => runSched (schedStep s b) rest

/-- The nonce a send observed at its fetch, when it already fetched. -/
def observedNonce : SendPhase → Option Nat
  | .ready => none
  | .signing n => some n
  | .done n _ => some n

/-! ## Concrete evaluations of parseEther used by several proofs -/

set_option maxRecDepth 100000

theorem parseEther_zero : parseEther "0" = .ok 0 := by decide

theorem parseEther_thousand : parseEther "1000" = .ok (10 ^ 21) := by decide

theorem parseEther_just_over :
    parseEther "1000.000000000000000001" = .ok (10 ^ 21 + 1) := by decide

/-- C4: for every recipient and amount string, a recipient that is not a
well-formed address is rejected as InvalidInput; amount 0 — and any amount
parsing to a non-positive wei value — is rejected as InvalidInput; any
amount parsing strictly above the 1000-whole-unit ceiling, among them
1000.000000000000000001, is rejected as InvalidInput; and amount 1000
exactly is accepted. -/
theorem validate_transaction_parameters_spec (isAddr : String → Bool)
    («to» amount : String) (n : Int) :
    ((«to» = "" ∨ isAddr «to» = false) →
        validateTransactionParameters isAddr «to» amount =
          .error (.invalidInput "Invalid recipient address"))
  ∧ («to» ≠ "" → isAddr «to» = true →
      (validateTransactionParameters isAddr «to» "0" =
          .error (.invalidInput "Amount must be greater than 0"))
    ∧ (parseEther amount = .ok n → n ≤ 0 →
        validateTransactionParameters isAddr «to» amount =
          .error (.invalidInput "Amount must be greater than 0"))
    ∧ (parseEther amount = .ok n → 1000 * 10 ^ 18 < n →
        validateTransactionParameters isAddr «to» amount =
          .error (.invalidInput "Amount exceeds maximum allowed (1000 ETH)"))
    ∧ (validateTransactionParameters isAddr «to» "1000.000000000000000001" =
          .error (.invalidInput "Amount exceeds maximum allowed (1000 ETH)"))
    ∧ validateTransactionParameters isAddr «to» "1000" = .ok ()) := by
  have hpow : (1000 * 10 ^ 18 : Int) = 10 ^ 21 := by norm_num
  constructor
  · intro h
    unfold validateTransactionParameters
    rcases h with h | h
    · simp [h]
    · simp [h]
  · intro hne hA
    have hcond : («to» == "" || !(isAddr «to»)) = false := by
      simp [hA, hne]
    refine ⟨?_, ?_, ?_, ?_, ?_⟩
    · unfold validateTransactionParameters
      rw [hcond, parseEther_zero]
      simp
    · intro hp hn
      unfold validateTransactionParameters
      rw [hcond, hp]
      simp [hn]
    · intro hp hn
      unfold validateTransactionParameters
      rw [hcond, hp, parseEther_thousand]
      norm_num at hn
      have h1 : ¬ (n ≤ 0) := by omega
      have h2 : (10 ^ 21 : Int) < n := by norm_num; omega
      simp only [Bool.false_eq_true, if_false, gt_iff_lt, if_pos h2, if_neg h1]
    · unfold validateTransactionParameters
      rw [hcond, parseEther_just_over, parseEther_thousand]
      norm_num
    · unfold validateTransactionParameters
      rw [hcond, parseEther_thousand]
      norm_num

/-- C4 witness: the five outcomes at concrete inputs, each obtained from
validate_transaction_parameters_spec with its hypotheses discharged. -/
theorem validate_transaction_parameters_spec_witness :
    validateTransactionParameters (fun s => s == "0xA") "0xB" "5" =
      .error (.invalidInput "Invalid recipient address")
  ∧ validateTransactionParameters (fun s => s == "0xA") "0xA" "0" =
      .error (.invalidInput "Amount must be greater than 0")
  ∧ validateTransactionParameters (fun s => s == "0xA") "0xA" "-3" =
      .error (.invalidInput "Amount must be greater than 0")
  ∧ validateTransactionParameters (fun s => s == "0xA") "0xA" "2000" =
      .error (.invalidInput "Amount exceeds maximum allowed (1000 ETH)")
  ∧ validateTransactionParameters (fun s => s == "0xA") "0xA"
      "1000.000000000000000001" =
      .error (.invalidInput "Amount exceeds maximum allowed (1000 ETH)")
  ∧ validateTransactionParameters (fun s => s == "0xA") "0xA" "1000" = .ok () := by
  have hbad := validate_transaction_parameters_spec (fun s => s == "0xA") "0xB" "5" 0
  have hm3 := validate_transaction_parameters_spec (fun s => s == "0xA") "0xA" "-3"
    (-(3 * 10 ^ 18))
  have h2k := validate_transaction_parameters_spec (fun s => s == "0xA") "0xA" "2000"
    (2 * 10 ^ 21)
  refine ⟨hbad.1 (Or.inr (by decide)), (hm3.2 (by decide) (by decide)).1,
    (hm3.2 (by decide) (by decide)).2.1 (by decide) (by decide),
    (h2k.2 (by decide) (by decide)).2.2.1 (by decide) (by norm_num),
    (hm3.2 (by decide) (by decide)).2.2.2.1,
    (hm3.2 (by decide) (by decide)).2.2.2.2⟩

/-- C5: wallet detection probes Hardware, then Software, then External, in
that fixed order; the first backend reporting a located wallet wins; in
particular, when both a hardware and a software wallet are located, the
active account is the hardware one. -/
theorem wallet_detection_order_spec (hw sw ext : Except String (Option String)) :
    (∀ a, hw = .ok (some a) →
        checkExistingWalletOrchestrator hw sw ext = some (a, .hardware))
  ∧ (∀ a b, hw = .ok (some a) → sw = .ok (some b) →
        checkExistingWalletOrchestrator hw sw ext = some (a, .hardware))
  ∧ (∀ a, hw = .ok none → sw = .ok (some a) →
        checkExistingWalletOrchestrator hw sw ext = some (a, .software))
  ∧ (∀ a, hw = .ok none → sw = .ok none → ext = .ok (some a) →
        checkExistingWalletOrchestrator hw sw ext = some (a, .external))
  ∧ (∀ a, checkExistingWalletOrchestrator hw sw ext = some (a, .software) →
        hw = .ok none)
  ∧ (∀ a, checkExistingWalletOrchestrator hw sw ext = some (a, .external) →
        hw = .ok none ∧ sw = .ok none) := by
  refine ⟨?_, ?_, ?_, ?_, ?_, ?_⟩
  · intro a h
    rw [h]
    rfl
  · intro a b h hs
    rw [h]
    rfl
  · intro a h hs
    rw [h, hs]
    rfl
  · intro a h hs he
    rw [h, hs, he]
    rfl
  · intro a h
    unfold checkExistingWalletOrchestrator at h
    split at h
    · exact absurd h (by simp)
    · simp_all
    · rfl
  · intro a h
    unfold checkExistingWalletOrchestrator at h
    split at h
    · exact absurd h (by simp)
    · simp_all
    · refine ⟨rfl, ?_⟩
      split at h
      · exact absurd h (by simp)
      · simp_all
      · rfl

/-- C5 witness: hardware and software both located; the hardware account
is the one returned. -/
theorem wallet_detection_order_spec_witness :
    checkExistingWalletOrchestrator (.ok (some "0xHW")) (.ok (some "0xSW"))
      (.ok none) = some ("0xHW", .hardware)
  ∧ checkExistingWalletOrchestrator (.ok none) (.ok (some "0xSW"))
      (.ok none) = some ("0xSW", .software)
  ∧ checkExistingWalletOrchestrator (.ok none) (.ok none)
      (.ok (some "0xEXT")) = some ("0xEXT", .external) :=
  ⟨(wallet_detection_order_spec (.ok (some "0xHW")) (.ok (some "0xSW"))
      (.ok none)).2.1 "0xHW" "0xSW" rfl rfl,
   (wallet_detection_order_spec (.ok none) (.ok (some "0xSW"))
      (.ok none)).2.2.1 "0xSW" rfl rfl,
   (wallet_detection_order_spec (.ok none) (.ok none)
      (.ok (some "0xEXT"))).2.2.2.1 "0xEXT" rfl rfl rfl⟩

/-- C10: wallet detection at the public interface never throws: every
error raised by a backend probe is caught and null (none) is returned,
both by the orchestrator and by WalletService.checkExistingWallet. -/
theorem wallet_detection_never_throws_spec
    (hw sw ext : Except String (Option String)) (env : CheckEnv) :
    (∀ m, hw = .error m → checkExistingWalletOrchestrator hw sw ext = none)
  ∧ (∀ m, hw = .ok none → sw = .error m →
        checkExistingWalletOrchestrator hw sw ext = none)
  ∧ (∀ m, hw = .ok none → sw = .ok none → ext = .error m →
        checkExistingWalletOrchestrator hw sw ext = none)
  ∧ (∀ m, env.isSecure = false → env.swWallet = .error m →
        checkExistingWalletWS env = none)
  ∧ (∀ m w, env.isSecure = true → env.hwWallet = .error m →
        env.swWallet = .error w → checkExistingWalletWS env = none) := by
  refine ⟨?_, ?_, ?_, ?_, ?_⟩
  · intro m h
    rw [h]
    rfl
  · intro m h hs
    rw [h, hs]
    rfl
  · intro m h hs he
    rw [h, hs, he]
    rfl
  · intro m hsec hsw
    unfold checkExistingWalletWS
    rw [hsec, hsw]
    rfl
  · intro m w hsec hhw hsw
    unfold checkExistingWalletWS
    rw [hsec, hhw, hsw]
    rfl

/-- C10 witness: concrete probe errors all map to none. -/
theorem wallet_detection_never_throws_spec_witness :
    checkExistingWalletOrchestrator (.error "hw boom") (.ok (some "0xSW"))
      (.ok none) = none
  ∧ checkExistingWalletOrchestrator (.ok none) (.error "sw boom")
      (.ok none) = none
  ∧ checkExistingWalletOrchestrator (.ok none) (.ok none)
      (.error "ext boom") = none
  ∧ checkExistingWalletWS
      { isSecure := false, hwWallet := .ok none, signHash := fun _ => .error "x",
        k := id, ga := id, swWallet := .error "store boom" } = none :=
  ⟨(wallet_detection_never_throws_spec (.error "hw boom") (.ok (some "0xSW"))
      (.ok none) ⟨false, .ok none, fun _ => .error "x", id, id, .ok none⟩).1
      "hw boom" rfl,
   (wallet_detection_never_throws_spec (.ok none) (.error "sw boom")
      (.ok none) ⟨false, .ok none, fun _ => .error "x", id, id, .ok none⟩).2.1
      "sw boom" rfl rfl,
   (wallet_detection_never_throws_spec (.ok none) (.ok none)
      (.error "ext boom") ⟨false, .ok none, fun _ => .error "x", id, id, .ok none⟩).2.2.1
      "ext boom" rfl rfl rfl,
   (wallet_detection_never_throws_spec (.ok none) (.ok none) (.ok none)
      { isSecure := false, hwWallet := .ok none, signHash := fun _ => .error "x",
        k := id, ga := id, swWallet := .error "store boom" }).2.2.2.1
      "store boom" rfl rfl⟩

/-! ## Address codec lemmas -/

theorem isPrefixOf_append_self (l t : List Char) : l.isPrefixOf (l ++ t) = true := by
  rw [List.isPrefixOf_iff_prefix]
  exact List.prefix_append l t

theorem strStartsWith_0x (s : String) : strStartsWith ("0x" ++ s) "0x" = true := by
  show List.isPrefixOf "0x".data (("0x" ++ s).data) = true
  rw [String.data_append]
  exact isPrefixOf_append_self _ _

theorem strDrop_0x (s : String) : strDrop ("0x" ++ s) 2 = s := by
  apply String.ext
  show (("0x" ++ s).data).drop 2 = s.data
  rw [String.data_append]
  rfl

/-- C7 counterexample: a raw key of malformed length (10 bytes, far from
the 64/65 bytes of an uncompressed public key) is accepted without error:
the codec applies the digest to it and produces an address, refuting the
claimed error on malformed key length. -/
theorem derive_address_accepts_malformed_length :
    deriveAddressFromPublicKey (fun _ => "00") (fun a => a)
      "00112233445566778899" = .ok "0x0x00"
  ∧ "00112233445566778899".toList.length = 20 := by decide

/-- C7 amended: the codec strips the uncompressed-point marker when
present, keccak-hashes the remaining hex key, keeps the low 20 bytes of
the digest and applies the checksum encoding, as a pure function; it
errors exactly when the remaining key is not well-formed hex (odd length
or a non-hex character) and performs NO key-length validation. -/
theorem derive_address_codec_spec (k ga : String → String) (pk : String) :
    (hexBodyOk (stripUncompressedMarker pk) = true →
      deriveAddressFromPublicKey k ga pk =
        .ok (ga ("0x" ++ sliceFromEnd 40 ("0x" ++ k (stripUncompressedMarker pk)))))
  ∧ (hexBodyOk (stripUncompressedMarker pk) = false →
      deriveAddressFromPublicKey k ga pk = .error "invalid BytesLike value")
  ∧ ((∀ t, (k t).toList.length = 64) → hexBodyOk (stripUncompressedMarker pk) = true →
      (sliceFromEnd 40 ("0x" ++ k (stripUncompressedMarker pk))).toList.length = 40) := by
  refine ⟨?_, ?_, ?_⟩
  · intro h
    simp only [deriveAddressFromPublicKey, keccakHex, strDrop_0x, strStartsWith_0x, h]
    simp
  · intro h
    simp only [deriveAddressFromPublicKey, keccakHex, strDrop_0x, strStartsWith_0x, h]
    simp
  · intro hlen _
    have hl : ("0x" ++ k (stripUncompressedMarker pk)).data =
        '0' :: 'x' :: (k (stripUncompressedMarker pk)).data := by
      rw [String.data_append]
      rfl
    unfold sliceFromEnd
    show (List.drop _ (("0x" ++ k (stripUncompressedMarker pk)).data)).length = 40
    rw [hl]
    have h64 : (k (stripUncompressedMarker pk)).data.length = 64 :=
      hlen (stripUncompressedMarker pk)
    simp [List.length_drop, h64]

/-- C7 witness: the codec characterization at a concrete key with and
without the marker, and with a non-hex key. -/
theorem derive_address_codec_spec_witness :
    deriveAddressFromPublicKey (fun _ => "ab") (fun a => a) "04cd" =
      .ok ("0x" ++ sliceFromEnd 40 "0xab")
  ∧ deriveAddressFromPublicKey (fun _ => "ab") (fun a => a) "zz" =
      .error "invalid BytesLike value" := by
  have h1 := (derive_address_codec_spec (fun _ => "ab") (fun a => a) "04cd").1
    (by decide)
  have h2 := (derive_address_codec_spec (fun _ => "ab") (fun a => a) "zz").2.1
    (by decide)
  exact ⟨h1, h2⟩

/-! ## Nonce-race interleavings -/

/-- C8 counterexample: with the code's unguarded nonce-fetch-then-broadcast
window, the interleaving fetch1, fetch2, broadcast1, broadcast2 of two
concurrent sends for the same address makes BOTH observe nonce 0; the
second broadcast is then rejected as a nonce conflict — refuting the claim
that a per-address signing lock prevents two in-flight attempts from
observing the same nonce. -/
theorem concurrent_sends_observe_same_nonce :
    observedNonce (runSched ⟨⟨0⟩, .ready, .ready⟩ [true, false, true, false]).p1
      = some 0
  ∧ observedNonce (runSched ⟨⟨0⟩, .ready, .ready⟩ [true, false, true, false]).p2
      = some 0
  ∧ (runSched ⟨⟨0⟩, .ready, .ready⟩ [true, false, true, false]).p1
      = .done 0 true
  ∧ (runSched ⟨⟨0⟩, .ready, .ready⟩ [true, false, true, false]).p2
      = .done 0 false := by decide

/-- C8 amended: the code holds no per-address signing lock over the
nonce-fetch-to-broadcast window, so concurrently dispatched sends for the
same address can both observe the same nonce and the later broadcast is
rejected as a nonce conflict; only fully serialized execution — the
discipline the spec's required lock would enforce — gives the two sends
distinct nonces and two accepted broadcasts. -/
theorem nonce_race_interleavings_spec (n : Nat) :
    ((runSched ⟨⟨n⟩, .ready, .ready⟩ [true, false, true, false]).p1
        = .done n true
  ∧ (runSched ⟨⟨n⟩, .ready, .ready⟩ [true, false, true, false]).p2
        = .done n false)
  ∧ ((runSched ⟨⟨n⟩, .ready, .ready⟩ [true, true, false, false]).p1
        = .done n true
  ∧ (runSched ⟨⟨n⟩, .ready, .ready⟩ [true, true, false, false]).p2
        = .done (n + 1) true) := by
  have hne : n ≠ n + 1 := by omega
  simp [runSched, schedStep, stepSend, hne]

/-! ## Storage encryption lemmas -/

theorem splitOnCh_ne_nil (c : Char) (l : List Char) : splitOnCh c l ≠ [] := by
  cases l with
  | nil => simp [splitOnCh]
  | cons x xs =>
    simp only [splitOnCh]
    split
    · simp
    · split <;> simp

theorem splitOnCh_head (c : Char) (d : List Char) :
    (splitOnCh c d)[0]? = some (d.takeWhile (fun x => !(x == c))) := by
  induction d with
  | nil => rfl
  | cons x xs ih =>
    simp only [splitOnCh]
    cases hs : splitOnCh c xs with
    | nil => exact absurd hs (splitOnCh_ne_nil c xs)
    | cons h t =>
      rw [hs] at ih
      simp only [List.getElem?_cons_zero, Option.some.injEq] at ih
      by_cases hx : x = c
      · subst hx
        simp [List.takeWhile_cons]
      · simp [hx, List.takeWhile_cons, ih]

theorem splitOnCh_append (c : Char) (pre d : List Char) (hk : c ∉ pre) :
    splitOnCh c (pre ++ c :: d) = pre :: splitOnCh c d := by
  induction pre with
  | nil =>
    simp only [List.nil_append, splitOnCh]
    cases hs : splitOnCh c d with
    | nil => exact absurd hs (splitOnCh_ne_nil c d)
    | cons h t => simp
  | cons x xs ih =>
    have hx : x ≠ c := fun hh => hk (by simp [hh])
    have hxs : c ∉ xs := fun hm => hk (List.mem_cons_of_mem _ hm)
    simp only [List.cons_append, splitOnCh, List.append_eq]
    rw [ih hxs]
    simp [hx]

theorem takeWhile_of_not_mem (c : Char) (l : List Char) (h : c ∉ l) :
    l.takeWhile (fun x => !(x == c)) = l := by
  induction l with
  | nil => rfl
  | cons x xs ih =>
    have hx : ¬ (x = c) := fun hh => h (by simp [hh])
    have hxs : c ∉ xs := fun hm => h (List.mem_cons_of_mem _ hm)
    simp [List.takeWhile_cons, hx, ih hxs]

/-- C9: the software key store's encryption layer is a key-less reversible
encoding, not encryption: decryptData takes no key at all, and for every
plaintext with no colon, decryptData (encryptData x) = x; the plaintext is
recovered purely by splitting encryptData's output on the colon separator;
for a plaintext holding a colon, only the portion before its first colon
comes back.  The hypothesis — the digest output holds no colon — is true
of the SHA-256 hex digest the source uses. -/
theorem encrypt_decrypt_roundtrip_spec (digest : List Char → List Char)
    (data : List Char) (hd : ':' ∉ digest (saltChars ++ data)) :
    decryptData (encryptData digest data) =
      some (data.takeWhile (fun x => !(x == ':')))
  ∧ (':' ∉ data → decryptData (encryptData digest data) = some data) := by
  have key : decryptData (encryptData digest data) = (splitOnCh ':' data)[0]? := by
    unfold decryptData encryptData
    rw [splitOnCh_append ':' _ data hd]
    simp
  constructor
  · rw [key, splitOnCh_head]
  · intro h
    rw [key, splitOnCh_head, takeWhile_of_not_mem ':' data h]

/-- C9 witness: a concrete round-trip — a colon-free plaintext comes back
unchanged; a plaintext with a colon comes back truncated at the colon. -/
theorem encrypt_decrypt_roundtrip_spec_witness :
    decryptData (encryptData (fun _ => ['a', 'b']) ['p', 'k', '7']) =
      some ['p', 'k', '7']
  ∧ decryptData (encryptData (fun _ => ['a', 'b']) ['p', ':', 'q']) =
      some ['p'] := by
  have h1 := (encrypt_decrypt_roundtrip_spec (fun _ => ['a', 'b'])
    ['p', 'k', '7'] (by decide)).2 (by decide)
  have h2 := (encrypt_decrypt_roundtrip_spec (fun _ => ['a', 'b'])
    ['p', ':', 'q'] (by decide)).1
  exact ⟨h1, by rw [h2]; decide⟩

/-! ## Recovery-id search lemmas -/

theorem findRecoveryId_some_spec (recover : Nat → Except String String)
    (expected a : String) (v : Nat)
    (h : findRecoveryId recover expected = some (a, v)) :
    recover v = .ok a ∧ lowerStr a = lowerStr expected ∧ (v = 27 ∨ v = 28) := by
  unfold findRecoveryId at h
  split at h
  next a27 heq =>
    split at h
    next hb =>
      simp only [Option.some.injEq, Prod.mk.injEq] at h
      obtain ⟨rfl, rfl⟩ := h
      exact ⟨heq, eq_of_beq hb, Or.inl rfl⟩
    next hb =>
      split at h
      next b28 heq2 =>
        split at h
        next hb2 =>
          simp only [Option.some.injEq, Prod.mk.injEq] at h
          obtain ⟨rfl, rfl⟩ := h
          exact ⟨heq2, eq_of_beq hb2, Or.inr rfl⟩
        next => simp at h
      next => simp at h
  next heq =>
    split at h
    next b28 heq2 =>
      split at h
      next hb2 =>
        simp only [Option.some.injEq, Prod.mk.injEq] at h
        obtain ⟨rfl, rfl⟩ := h
        exact ⟨heq2, eq_of_beq hb2, Or.inr rfl⟩
      next => simp at h
    next => simp at h

theorem findRecoveryId_first27 (recover : Nat → Except String String)
    (expected a : String) (h27 : recover 27 = .ok a)
    (hm : lowerStr a = lowerStr expected) :
    findRecoveryId recover expected = some (a, 27) := by
  unfold findRecoveryId
  rw [h27]
  simp [hm]

theorem findRecoveryId_second28 (recover : Nat → Except String String)
    (expected a b : String) (h27 : recover 27 = .ok a)
    (hne : lowerStr a ≠ lowerStr expected) (h28 : recover 28 = .ok b)
    (hm : lowerStr b = lowerStr expected) :
    findRecoveryId recover expected = some (b, 28) := by
  unfold findRecoveryId
  rw [h27, h28]
  simp [hm, hne]

theorem findRecoveryId_depends_only_on_27_28
    (f g : Nat → Except String String) (expected : String)
    (h27 : f 27 = g 27) (h28 : f 28 = g 28) :
    findRecoveryId f expected = findRecoveryId g expected := by
  unfold findRecoveryId
  rw [h27, h28]

/-! ## Reconciliation lemmas -/

theorem reconcile_ok_spec (env : HybridEnv) (txHash : String)
    (signature : HardwareSignature) (vs : Sig) (sa ra : String) (cv : Nat)
    (h : reconcile env txHash signature vs = .ok (sa, ra, cv)) :
    deriveAddressFromPublicKey env.k env.ga signature.publicKey = .ok sa
  ∧ env.recoverAddress txHash { r := vs.r, s := vs.s, v := cv } = .ok ra
  ∧ lowerStr ra = lowerStr sa ∧ (cv = 27 ∨ cv = 28) := by
  unfold reconcile at h
  split at h
  next => simp at h
  next sa0 heq =>
    split at h
    next => simp at h
    next rec0 cv0 hfind =>
      simp only [Except.ok.injEq, Prod.mk.injEq] at h
      obtain ⟨rfl, rfl, rfl⟩ := h
      have hs := findRecoveryId_some_spec _ _ _ _ hfind
      exact ⟨heq, hs.1, hs.2.1, hs.2.2⟩

theorem reconcile_none_spec (env : HybridEnv) (txHash : String)
    (signature : HardwareSignature) (vs : Sig) (sa : String)
    (hd : deriveAddressFromPublicKey env.k env.ga signature.publicKey = .ok sa)
    (hn : findRecoveryId
        (fun v => env.recoverAddress txHash { r := vs.r, s := vs.s, v := v })
        sa = none) :
    reconcile env txHash signature vs = .error .signatureVerificationFailed := by
  unfold reconcile
  simp only [hd]
  rw [hn]

/-! ## Inversion of a successful first signing attempt -/

theorem buildAndSign_ok_spec (env : HybridEnv) («to» amount : String)
    (b : SignedBundle) (h : buildAndSign env «to» amount = .ok b) :
    deriveAddressFromPublicKey env.k env.ga b.hwSig.publicKey =
      .ok b.signatureAddress
  ∧ keccakHex env.k (env.unsignedSerialized b.unsignedTx) = .ok b.txHash
  ∧ env.signHash b.txHash = .ok b.hwSig
  ∧ env.recoverAddress b.txHash b.sig = .ok b.recoveredAddress
  ∧ lowerStr b.recoveredAddress = lowerStr b.signatureAddress
  ∧ (b.sig.v = 27 ∨ b.sig.v = 28)
  ∧ b.sig.r = with0x b.hwSig.r ∧ b.sig.s = with0x b.hwSig.s
  ∧ (∃ a, env.txFrom b.unsignedTx b.sig = some a
        ∧ lowerStr a = lowerStr b.signatureAddress)
  ∧ b.serializedTx = env.serializedSigned b.unsignedTx b.sig
  ∧ b.unsignedTx.nonce = env.nonce1 := by
  simp only [buildAndSign] at h
  split at h
  next => simp at h
  next hval =>
  split at h
  next => simp at h
  next => simp at h
  next w hcw =>
  split at h
  next => simp at h
  next dummyHash hdummy =>
  split at h
  next => simp at h
  next testSig htest =>
  split at h
  next => simp at h
  next actualAddr hderivetest =>
  split at h
  next => simp at h
  next value hparse =>
  split at h
  next => simp at h
  next txh hkecc =>
  split at h
  next => simp at h
  next hw hsign =>
  split at h
  next => simp at h
  next sa ra cv hrec =>
  split at h
  next hcheck =>
    simp only [Except.ok.injEq] at h
    subst h
    have hr := reconcile_ok_spec _ _ _ _ _ _ _ hrec
    simp only [Bool.and_eq_true] at hcheck
    obtain ⟨hfrom, hrec2⟩ := hcheck
    refine ⟨hr.1, hkecc, hsign, hr.2.1, hr.2.2.1, hr.2.2.2, rfl, rfl, ?_, rfl, rfl⟩
    revert hfrom
    cases hx : env.txFrom
        { «to» := «to», value := value, nonce := env.nonce1,
          gasLimit := env.estimatedGas, gasPrice := env.gasPriceWei,
          data := "0x", chainId := env.chainId, txType := 0 }
        { r := with0x hw.r, s := with0x hw.s, v := cv } with
    | none => intro hfrom; simp at hfrom
    | some a => intro hfrom; exact ⟨a, rfl, eq_of_beq hfrom⟩
  next => simp at h

/-- C2: the hardware reconciliation searches the recovery identifier only
over the closed set containing 27 and 28 (the search consults the recovery
oracle at no other value); the first v whose recovered address equals the
address derived from the signer public key is accepted and becomes the
signature's authoritative v; and when neither candidate matches, the
attempt fails with SignatureVerificationFailed and no transaction is
produced. -/
theorem recovery_id_search_spec (env : HybridEnv) («to» amount : String) :
    (∀ b, buildAndSign env «to» amount = .ok b →
        (b.sig.v = 27 ∨ b.sig.v = 28)
      ∧ env.recoverAddress b.txHash b.sig = .ok b.recoveredAddress
      ∧ lowerStr b.recoveredAddress = lowerStr b.signatureAddress)
  ∧ (∀ txHash signature vs sa,
        deriveAddressFromPublicKey env.k env.ga signature.publicKey = .ok sa →
        findRecoveryId
          (fun v => env.recoverAddress txHash { r := vs.r, s := vs.s, v := v })
          sa = none →
        reconcile env txHash signature vs = .error .signatureVerificationFailed)
  ∧ (∀ e bc, buildAndSign env «to» amount = .error e →
        hybridSendCore env bc «to» amount = .error e)
  ∧ (∀ recover expected a, recover 27 = .ok a → lowerStr a = lowerStr expected →
        findRecoveryId recover expected = some (a, 27))
  ∧ (∀ recover expected a c, recover 27 = .ok a →
        lowerStr a ≠ lowerStr expected → recover 28 = .ok c →
        lowerStr c = lowerStr expected →
        findRecoveryId recover expected = some (c, 28))
  ∧ (∀ (f g : Nat → Except String String) expected,
        f 27 = g 27 → f 28 = g 28 →
        findRecoveryId f expected = findRecoveryId g expected) := by
  refine ⟨?_, ?_, ?_, ?_, ?_, ?_⟩
  · intro b hb
    have hs := buildAndSign_ok_spec env «to» amount b hb
    exact ⟨hs.2.2.2.2.2.1, hs.2.2.2.1, hs.2.2.2.2.1⟩
  · intro txHash signature vs sa hd hn
    exact reconcile_none_spec env txHash signature vs sa hd hn
  · intro e bc hb
    simp only [hybridSendCore, hb]
  · intro recover expected a h27 hm
    exact findRecoveryId_first27 recover expected a h27 hm
  · intro recover expected a c h27 hne h28 hm
    exact findRecoveryId_second28 recover expected a c h27 hne h28 hm
  · intro f g expected h27 h28
    exact findRecoveryId_depends_only_on_27_28 f g expected h27 h28

/-- C3: the broadcast of a signed transaction retries exactly once, and
only on a nonce-conflict broadcast error: a fresh nonce is fetched, the
transaction rebuilt and re-signed, and re-broadcast once; a non-nonce
first failure, or a failing retry, is terminal; and the outcome depends on
the broadcast oracle only at call indices 0 and 1 — the dispatcher never
loops. -/
theorem broadcast_single_retry_spec (env : HybridEnv)
    (bc : Nat → String → Except String String) («to» amount : String)
    (b : SignedBundle) (hb : buildAndSign env «to» amount = .ok b) :
    (∀ h, bc 0 b.serializedTx = .ok h →
        hybridSendCore env bc «to» amount =
          .ok { tx := b.unsignedTx, hwSig := b.hwSig, sig := b.sig,
                raw := b.serializedTx, response := h, retried := false })
  ∧ (∀ msg, bc 0 b.serializedTx = .error msg → includesNonce msg = false →
        hybridSendCore env bc «to» amount = .error (.broadcastRejected msg))
  ∧ (∀ msg retryHash rsig, bc 0 b.serializedTx = .error msg →
        includesNonce msg = true →
        keccakHex env.k (env.unsignedSerialized
          { b.unsignedTx with nonce := env.nonce2 }) = .ok retryHash →
        env.signHash retryHash = .ok rsig →
        (∀ h2, bc 1 (env.serializedSigned { b.unsignedTx with nonce := env.nonce2 }
              { r := with0x rsig.r, s := with0x rsig.s, v := rsig.v }) = .ok h2 →
            hybridSendCore env bc «to» amount =
              .ok { tx := { b.unsignedTx with nonce := env.nonce2 },
                    hwSig := rsig,
                    sig := { r := with0x rsig.r, s := with0x rsig.s, v := rsig.v },
                    raw := env.serializedSigned
                      { b.unsignedTx with nonce := env.nonce2 }
                      { r := with0x rsig.r, s := with0x rsig.s, v := rsig.v },
                    response := h2, retried := true })
      ∧ (∀ m2, bc 1 (env.serializedSigned { b.unsignedTx with nonce := env.nonce2 }
              { r := with0x rsig.r, s := with0x rsig.s, v := rsig.v }) = .error m2 →
            hybridSendCore env bc «to» amount = .error (.broadcastRejected m2)))
  ∧ (∀ bc2 : Nat → String → Except String String, bc2 0 = bc 0 → bc2 1 = bc 1 →
        hybridSendCore env bc2 «to» amount = hybridSendCore env bc «to» amount) := by
  refine ⟨?_, ?_, ?_, ?_⟩
  · intro h hok
    simp only [hybridSendCore, HybridEnv.broadcastAt, hb, hok]
  · intro msg herr hnn
    simp only [hybridSendCore, HybridEnv.broadcastAt, hb, herr, hnn]
    simp
  · intro msg retryHash rsig herr hnn hkecc hsig
    constructor
    · intro h2 hok2
      simp only [hybridSendCore, HybridEnv.broadcastAt, hb, herr, hnn, hkecc,
        hsig, hok2]
      simp
    · intro m2 herr2
      simp only [hybridSendCore, HybridEnv.broadcastAt, hb, herr, hnn, hkecc,
        hsig, herr2]
      simp
  · intro bc2 h0 h1
    simp only [hybridSendCore, HybridEnv.broadcastAt, hb, h0, h1]

/-- C1 amended: for a transaction produced WITHOUT the nonce-conflict
retry, the sender recovered from the reconstructed transaction, the
address derived from the signer's public key, and the address recovered
from (txHash, r, s, v) all agree (case-insensitively), and the check runs
before broadcast, aborting on mismatch; the guarantee does NOT extend to
the transaction produced on a nonce-conflict retry, which is re-signed and
broadcast without re-verification. -/
theorem hybrid_first_attempt_triple_equality (env : HybridEnv)
    (bc : Nat → String → Except String String) («to» amount : String)
    (out : SentTx) (h : hybridSendCore env bc «to» amount = .ok out)
    (hnr : out.retried = false) :
    ∃ sigAddr,
      deriveAddressFromPublicKey env.k env.ga out.hwSig.publicKey = .ok sigAddr
    ∧ (∃ a, env.txFrom out.tx out.sig = some a ∧ lowerStr a = lowerStr sigAddr)
    ∧ (∃ txHash recovered,
        keccakHex env.k (env.unsignedSerialized out.tx) = .ok txHash
      ∧ env.recoverAddress txHash out.sig = .ok recovered
      ∧ lowerStr recovered = lowerStr sigAddr) := by
  simp only [hybridSendCore, HybridEnv.broadcastAt] at h
  split at h
  next => simp at h
  next b hbs =>
  split at h
  next resp hok =>
    simp only [Except.ok.injEq] at h
    subst h
    have hs := buildAndSign_ok_spec env «to» amount b hbs
    exact ⟨b.signatureAddress, hs.1, hs.2.2.2.2.2.2.2.2.1,
      b.txHash, b.recoveredAddress, hs.2.1, hs.2.2.2.1, hs.2.2.2.2.1⟩
  next msg herr =>
    split at h
    next hn =>
      split at h
      next => simp at h
      next retryHash hk2 =>
      split at h
      next => simp at h
      next rsig hs2 =>
      split at h
      next h2 hok2 =>
        simp only [Except.ok.injEq] at h
        subst h
        simp at hnr
      next => simp at h
    next hn => simp at h

/-- The environment of the C1 counterexample: the first attempt passes
reconciliation and the address check, its broadcast fails with a nonce
error, and the hardware module answers the retry hash with a signature by
a DIFFERENT key (public key 04dd) whose v is wrong for the reconstructed
transaction: the reconstructed retry sender is 0xEVIL. -/
def retryEnv : HybridEnv :=
  { isAddr := fun _ => true, k := id, ga := id,
    checkForExistingWallet := .ok (some ⟨"04ab"⟩),
    signHash := fun h =>
      if h = "0x0304" then .ok ⟨"11", "22", 27, "04dd"⟩
      else .ok ⟨"aa", "bb", 27, "04cc"⟩,
    gasPriceWei := 7, estimatedGas := 21000, nonce1 := 5, nonce2 := 6,
    chainId := 11155111,
    unsignedSerialized := fun tx => if tx.nonce = 5 then "0x0102" else "0x0304",
    serializedSigned := fun tx _ => if tx.nonce = 5 then "0xMAIN" else "0xRETRY",
    txFrom := fun tx _ => if tx.nonce = 5 then some "0x0xCC" else some "0xEVIL",
    recoverAddress := fun _ sig => if sig.v = 27 then .ok "0x0xCC" else .ok "0xZZ" }

/-- The broadcast oracle of the C1 counterexample: the first broadcast is
rejected with a nonce error; the retry broadcast is accepted. -/
def retryBc : Nat → String → Except String String :=
  fun n _ => if n = 0 then .error "nonce has already been used" else .ok "0xT2"

/-- C1 counterexample: the hybrid path RETURNS the retried transaction
although its sender (0xEVIL, as recovered from the reconstructed
transaction) differs from the address derived from the retry signer's
public key (0x0xdd) and from the address recovered from the retry hash
with the signature's v (0x0xCC): the retry path performs no sender
re-derivation, so a transaction with a mismatched sender IS returned. -/
theorem hybrid_retry_skips_sender_check :
    hybridSendCore retryEnv retryBc "0xT" "1" =
      .ok { tx := { «to» := "0xT", value := 10 ^ 18, nonce := 6,
                    gasLimit := 21000, gasPrice := 7, data := "0x",
                    chainId := 11155111, txType := 0 },
            hwSig := ⟨"11", "22", 27, "04dd"⟩,
            sig := ⟨"0x11", "0x22", 27⟩, raw := "0xRETRY", response := "0xT2",
            retried := true }
  ∧ deriveAddressFromPublicKey retryEnv.k retryEnv.ga "04dd" = .ok "0x0xdd"
  ∧ retryEnv.txFrom
      { «to» := "0xT", value := 10 ^ 18, nonce := 6, gasLimit := 21000,
        gasPrice := 7, data := "0x", chainId := 11155111, txType := 0 }
      ⟨"0x11", "0x22", 27⟩ = some "0xEVIL"
  ∧ lowerStr "0xEVIL" ≠ lowerStr "0x0xdd"
  ∧ retryEnv.recoverAddress "0x0304" ⟨"0x11", "0x22", 27⟩ = .ok "0x0xCC"
  ∧ lowerStr "0x0xCC" ≠ lowerStr "0x0xdd" := by decide

/-- The environment of the C1 witness: identical to the counterexample
environment except that the first broadcast is accepted. -/
def firstTryEnv : HybridEnv :=
  { retryEnv with serializedSigned := fun tx _ =>
      if tx.nonce = 5 then "0xMAINW" else "0xRETRYW" }

/-- Broadcast oracle accepting the first attempt. -/
def firstTryBc : Nat → String → Except String String :=
  fun _ _ => .ok "0xH1"

/-- The transaction the witness environment produces on the first attempt. -/
def firstTryOut : SentTx :=
  { tx := { «to» := "0xT", value := 10 ^ 18, nonce := 5, gasLimit := 21000,
            gasPrice := 7, data := "0x", chainId := 11155111, txType := 0 },
    hwSig := ⟨"aa", "bb", 27, "04cc"⟩, sig := ⟨"0xaa", "0xbb", 27⟩,
    raw := "0xMAINW", response := "0xH1", retried := false }

/-- C1 witness: a non-retried send satisfying the triple equality,
obtained from hybrid_first_attempt_triple_equality with both hypotheses
discharged by evaluation. -/
theorem hybrid_first_attempt_triple_equality_witness :
    ∃ sigAddr,
      deriveAddressFromPublicKey firstTryEnv.k firstTryEnv.ga
        firstTryOut.hwSig.publicKey = .ok sigAddr
    ∧ (∃ a, firstTryEnv.txFrom firstTryOut.tx firstTryOut.sig = some a
          ∧ lowerStr a = lowerStr sigAddr)
    ∧ (∃ txHash recovered,
        keccakHex firstTryEnv.k (firstTryEnv.unsignedSerialized firstTryOut.tx)
          = .ok txHash
      ∧ firstTryEnv.recoverAddress txHash firstTryOut.sig = .ok recovered
      ∧ lowerStr recovered = lowerStr sigAddr) :=
  hybrid_first_attempt_triple_equality firstTryEnv firstTryBc "0xT" "1"
    firstTryOut (by decide) (by decide)

/-- A witness environment whose reconciliation succeeds at v = 28 (so the
27 candidate mismatches and the 28 one is accepted). -/
def searchEnv : HybridEnv :=
  { isAddr := fun _ => true, k := id, ga := id,
    checkForExistingWallet := .ok (some ⟨"04ab"⟩),
    signHash := fun _ => .ok ⟨"cc", "dd", 27, "04ee"⟩,
    gasPriceWei := 3, estimatedGas := 100, nonce1 := 1, nonce2 := 2,
    chainId := 5,
    unsignedSerialized := fun _ => "0x0506",
    serializedSigned := fun _ _ => "0xSER",
    txFrom := fun _ _ => some "0x0xEE",
    recoverAddress := fun _ sig => if sig.v = 28 then .ok "0x0XEE" else .ok "0xNO" }

/-- The bundle the witness environment's first attempt produces. -/
def searchBundle : SignedBundle :=
  { actualSigningAddress := "0x0xee",
    unsignedTx := { «to» := "0xT", value := 2 * 10 ^ 18, nonce := 1,
                    gasLimit := 100, gasPrice := 3, data := "0x", chainId := 5,
                    txType := 0 },
    txHash := "0x0506", hwSig := ⟨"cc", "dd", 27, "04ee"⟩,
    signatureAddress := "0x0xee", recoveredAddress := "0x0XEE",
    sig := ⟨"0xcc", "0xdd", 28⟩, serializedTx := "0xSER" }

/-- A variant of the witness environment in which no recovery candidate
matches the expected address. -/
def failSearchEnv : HybridEnv :=
  { searchEnv with recoverAddress := fun _ _ => .ok "0xNO" }

/-- C2 witness: the successful-bundle facts, the reconciliation failure on
exhausted search, and the first-candidate acceptance, each obtained from
recovery_id_search_spec with its hypotheses discharged by evaluation. -/
theorem recovery_id_search_spec_witness :
    ((searchBundle.sig.v = 27 ∨ searchBundle.sig.v = 28)
      ∧ searchEnv.recoverAddress searchBundle.txHash searchBundle.sig =
          .ok searchBundle.recoveredAddress
      ∧ lowerStr searchBundle.recoveredAddress =
          lowerStr searchBundle.signatureAddress)
  ∧ reconcile failSearchEnv "0x0506" ⟨"cc", "dd", 27, "04ee"⟩
      ⟨"0xcc", "0xdd", 27⟩ = .error .signatureVerificationFailed
  ∧ findRecoveryId (fun v => if v = 27 then .ok "0xAB" else .error "boom")
      "0xab" = some ("0xAB", 27) := by
  refine ⟨(recovery_id_search_spec searchEnv "0xT" "2").1 searchBundle
      (by decide), ?_, ?_⟩
  · exact (recovery_id_search_spec failSearchEnv "0xT" "2").2.1 "0x0506"
      ⟨"cc", "dd", 27, "04ee"⟩ ⟨"0xcc", "0xdd", 27⟩ "0x0xee" (by decide)
      (by decide)
  · exact (recovery_id_search_spec searchEnv "0xT" "2").2.2.2.1
      (fun v => if v = 27 then .ok "0xAB" else .error "boom") "0xab" "0xAB"
      (by decide) (by decide)

/-- The broadcast oracle of the C3 witness: first call rejected with a
nonce error, second call accepted. -/
def retryOnceBc : Nat → String → Except String String :=
  fun n _ => if n = 0 then .error "nonce too low" else .ok "0xRT"

/-- C3 witness: first-broadcast success, terminal non-nonce failure, and
the single nonce-conflict retry, each obtained from
broadcast_single_retry_spec with its hypotheses discharged by
evaluation. -/
theorem broadcast_single_retry_spec_witness :
    hybridSendCore searchEnv (fun _ _ => .ok "0xDONE") "0xT" "2" =
      .ok { tx := searchBundle.unsignedTx, hwSig := searchBundle.hwSig,
            sig := searchBundle.sig, raw := searchBundle.serializedTx,
            response := "0xDONE", retried := false }
  ∧ hybridSendCore searchEnv (fun _ _ => .error "gas too low") "0xT" "2" =
      .error (.broadcastRejected "gas too low")
  ∧ hybridSendCore searchEnv retryOnceBc "0xT" "2" =
      .ok { tx := { searchBundle.unsignedTx with nonce := 2 },
            hwSig := ⟨"cc", "dd", 27, "04ee"⟩, sig := ⟨"0xcc", "0xdd", 27⟩,
            raw := "0xSER", response := "0xRT", retried := true } := by
  refine ⟨?_, ?_, ?_⟩
  · exact (broadcast_single_retry_spec searchEnv (fun _ _ => .ok "0xDONE")
      "0xT" "2" searchBundle (by decide)).1 "0xDONE" rfl
  · exact (broadcast_single_retry_spec searchEnv (fun _ _ => .error "gas too low")
      "0xT" "2" searchBundle (by decide)).2.1 "gas too low" rfl (by decide)
  · exact ((broadcast_single_retry_spec searchEnv retryOnceBc "0xT" "2"
      searchBundle (by decide)).2.2.1 "nonce too low" "0x0506"
      ⟨"cc", "dd", 27, "04ee"⟩ (by decide) (by decide) (by decide)
      (by decide)).1 "0xRT" (by decide)

/-! ## Hardware locate: probe versus stored address -/

theorem keccakHex_dummy (k : String → String) :
    keccakHex k "0x1234567890abcdef" = .ok ("0x" ++ k "1234567890abcdef") := by
  rfl

/-- The C6 counterexample environment: a secure device with a stored
hardware key whose signing probe FAILS. -/
def storedKeyEnv : CheckEnv :=
  { isSecure := true, hwWallet := .ok (some ⟨"04ee"⟩),
    signHash := fun _ => .error "probe failed", k := id, ga := id,
    swWallet := .ok none }

/-- C6 counterexample: WalletService.checkExistingWallet reports the
address derived from the STORED public key with no signing probe at all
(the probe of this environment always fails, yet an address is returned),
and WalletService.getActualSigningAddress falls back to that same stored
address when the probe fails — so a stored address IS returned for the
hardware backend without probe revalidation. -/
theorem stored_address_returned_without_probe :
    checkExistingWalletWS storedKeyEnv = some "0x0xee"
  ∧ getActualSigningAddressWS storedKeyEnv = some "0x0xee"
  ∧ storedKeyEnv.signHash "0x1234567890abcdef" = .error "probe failed"
  ∧ deriveAddressFromPublicKey storedKeyEnv.k storedKeyEnv.ga "04ee" =
      .ok "0x0xee" := by decide

/-- C6 amended: the hardware backend's own locate
(HardwareWalletService.getWallet) never uses the stored public key for
the reported address — it re-derives the signing address from the public
key returned by a throwaway hash-signing probe and reports no wallet when
the probe fails; but WalletService.checkExistingWallet's hardware branch
returns the address derived from the stored public key without any probe,
and WalletService.getActualSigningAddress falls back to that stored
address whenever the probe fails. -/
theorem hardware_locate_probe_spec (env : HWEnv) (cenv : CheckEnv) :
    (∀ a, getWalletHW env = some a →
        ∃ sig, env.signHash ("0x" ++ env.k "1234567890abcdef") = .ok sig
          ∧ deriveAddressFromPublicKey env.k env.ga sig.publicKey = .ok a)
  ∧ (∀ m, env.signHash ("0x" ++ env.k "1234567890abcdef") = .error m →
        getWalletHW env = none)
  ∧ (∀ w a, cenv.isSecure = true → cenv.hwWallet = .ok (some w) →
        deriveAddressFromPublicKey cenv.k cenv.ga w.publicKey = .ok a →
        checkExistingWalletWS cenv = some a)
  ∧ (∀ m, cenv.isSecure = true →
        cenv.signHash ("0x" ++ cenv.k "1234567890abcdef") = .error m →
        getActualSigningAddressWS cenv = checkExistingWalletWS cenv) := by
  refine ⟨?_, ?_, ?_, ?_⟩
  · intro a h
    unfold getWalletHW at h
    split at h
    next => simp at h
    next havail =>
    split at h
    next => simp at h
    next => simp at h
    next w hcw =>
    unfold getActualSigningAddressHW at h
    split at h
    next => simp at h
    next =>
    simp only [keccakHex_dummy] at h
    split at h
    next => simp at h
    next sig hsig =>
    split at h
    next => simp at h
    next addr hda =>
    simp only [Option.some.injEq] at h
    subst h
    exact ⟨sig, hsig, hda⟩
  · intro m hm
    unfold getWalletHW
    split
    next => rfl
    next havail =>
    split
    next => rfl
    next => rfl
    next w hcw =>
    unfold getActualSigningAddressHW
    split
    next h => exact absurd h havail
    next =>
    simp only [keccakHex_dummy]
    rw [hm]
  · intro w a hsec hhw hda
    simp only [checkExistingWalletWS, hsec, if_true, hhw, hda]
  · intro m hsec hm
    unfold getActualSigningAddressWS
    rw [hsec]
    simp only [Bool.true_eq_false, if_false, keccakHex_dummy]
    rw [hm]

/-- The C6 witness probe environment: the hardware locate succeeds via the
throwaway signature, whose key differs from the stored one. -/
def probeEnv : HWEnv :=
  { isAvailable := true, hwWallet := .ok (some ⟨"04aa"⟩),
    signHash := fun _ => .ok ⟨"r1", "s1", 27, "04bb"⟩, k := id, ga := id }

/-- The C6 witness probe environment with a failing probe. -/
def probeFailEnv : HWEnv :=
  { probeEnv with signHash := fun _ => .error "sign timeout" }

/-- C6 witness: the amended characterization at concrete environments —
the probe-derived address (04bb, not the stored 04aa) is reported, a
failing probe reports none, and the WalletService branch returns the
stored-derived address — each from hardware_locate_probe_spec with its
hypotheses discharged by evaluation. -/
theorem hardware_locate_probe_spec_witness :
    (∃ sig, probeEnv.signHash ("0x" ++ probeEnv.k "1234567890abcdef") = .ok sig
        ∧ deriveAddressFromPublicKey probeEnv.k probeEnv.ga sig.publicKey =
            .ok "0x0xbb")
  ∧ getWalletHW probeFailEnv = none
  ∧ checkExistingWalletWS storedKeyEnv = some "0x0xee"
  ∧ getActualSigningAddressWS storedKeyEnv = checkExistingWalletWS storedKeyEnv := by
  refine ⟨?_, ?_, ?_, ?_⟩
  · exact (hardware_locate_probe_spec probeEnv storedKeyEnv).1 "0x0xbb" (by decide)
  · exact (hardware_locate_probe_spec probeFailEnv storedKeyEnv).2.1
      "sign timeout" (by decide)
  · exact (hardware_locate_probe_spec probeEnv storedKeyEnv).2.2.1 ⟨"04ee"⟩
      "0x0xee" (by decide) (by decide) (by decide)
  · exact (hardware_locate_probe_spec probeEnv storedKeyEnv).2.2.2 "probe failed"
      (by decide) (by decide)

end WalletPoc
